import Mathlib

set_option maxHeartbeats 1000000

/-
Shallow embedding of the ingestion pipeline of `backup_photos.py` (with the
filesystem storage variant of `backends/filesystem.py`): media entries, the
date-partitioned destination path scheme, the presence check, the skip
filter with its early-stop counter, the companion expander, the paginated
catalog enumeration, and the per-unit download/retry control flow.

Destination state is modelled explicitly: a file maps to either a size
(`FileStat.ok size`, what `os.path.getsize` returns) or a lookup error
(`FileStat.error`, an `OSError` raised while statting).  External library
decoding (base64 file names, epoch timestamps) is abstracted into already
decoded record fields, since those are stdlib collaborators of the code.
-/

namespace ICloudBackup

/-- Calendar date (UTC) of a media item, used by `get_download_dir` to build
the `YYYY/MM/DD` storage partition (`"{:%Y/%m/%d}".format(created_date)`). -/
structure Date where
  year : Nat
  month : Nat
  day : Nat
deriving DecidableEq, Repr

/-- Zero-padded decimal rendering, as produced by the `%Y`/`%m`/`%d` format
codes. -/
def padNum (width : Nat) (n : Nat) : String :=
  let s := toString n
  String.mk (List.replicate (width - s.length) '0') ++ s

/-- `get_download_dir(created_date, directory)` from `backup_photos.py`:
`os.path.join(directory, "{:%Y/%m/%d}".format(created_date))`. -/
def get_download_dir (created_date : Date) (directory : String) : String :=
  directory ++ "/" ++ padNum 4 created_date.year ++ "/" ++
    padNum 2 created_date.month ++ "/" ++ padNum 2 created_date.day

/-- Result of statting an existing destination file: its size, or the
`OSError` that `os.path.getsize` raised. -/
inductive FileStat where
  | ok (size : Nat)
  | error
deriving DecidableEq, Repr

/-- Destination state: stored files (path to stat outcome; newest write
first, `lookupFile` finds the newest) and the set of created directories. -/
structure FS where
  files : List (String × FileStat)
  dirs : List String
deriving DecidableEq, Repr

/-- Look up the destination object at `path`; `none` models
`os.path.isfile` returning `False`. -/
def lookupFile (fs : FS) (path : String) : Option FileStat :=
  (fs.files.find? (fun e => e.1 == path)).map (fun e => e.2)

/-- Effect of `open(download_path, 'wb')` writing `n` bytes: the path now
holds a statable object of size `n` (shadowing any previous object). -/
def writeFile (fs : FS) (path : String) (n : Nat) : FS :=
  { fs with files := (path, FileStat.ok n) :: fs.files }

/-- Effect of `os.makedirs(download_dir)` guarded by `os.path.exists`. -/
def mkdir (fs : FS) (d : String) : FS :=
  if fs.dirs.contains d then fs else { fs with dirs := d :: fs.dirs }

/-- The `Media` attrs class of `backup_photos.py`.  `other_media` is the
optional Live-Photo companion (itself a `Media`, in practice never nested
further). -/
inductive Media where
  | mk (file_name : String) (created_date : Date) (file_size : Nat)
      (download_url : String) (other_media : Option Media)

def Media.file_name : Media → String
  | .mk n _ _ _ _ => n

def Media.created_date : Media → Date
  | .mk _ d _ _ _ => d

def Media.file_size : Media → Nat
  | .mk _ _ s _ _ => s

def Media.download_url : Media → String
  | .mk _ _ _ u _ => u

def Media.other_media : Media → Option Media
  | .mk _ _ _ _ o => o

/-- Destination path of one item: `os.path.join(download_dir, file_name)`
with `download_dir = get_download_dir(created_date, backup_location)`. -/
def item_download_path (item : Media) (backup_location : String) : String :=
  get_download_dir (Media.created_date item) backup_location ++ "/" ++ Media.file_name item

/-- `already_saved(item, backup_location)` from `backup_photos.py`
(filesystem branch; `FileSystem.already_saved` in `backends/filesystem.py`
is the same logic): `False` when the path is not a file, `False` when
`os.path.getsize` raises `OSError`, `False` on a size mismatch, `True`
exactly when the stored size equals `item.file_size`. -/
def already_saved (fs : FS) (item : Media) (backup_location : String) : Bool :=
  match lookupFile fs (item_download_path item backup_location) with
  | none => false
  | some FileStat.error => false
  | some (FileStat.ok actual) => actual == Media.file_size item

/-- C2: the presence check returns true iff a destination object exists at
the path derived from the entry's creation date and name and its stored
size exactly equals the entry's expected size; a size mismatch, a missing
file, and an error raised while looking up the stored size all yield
false, never true. -/
theorem already_saved_iff_exists_exact_size (fs : FS) (item : Media) (loc : String) :
    already_saved fs item loc = true ↔
      lookupFile fs (item_download_path item loc) =
        some (FileStat.ok (Media.file_size item)) := by
  unfold already_saved
  cases h : lookupFile fs (item_download_path item loc) with
  | none => simp
  | some st =>
    cases st with
    | error => simp
    | ok actual => simp [beq_iff_eq]

/-- The `saved` value computed per item by `skip_already_saved`:
`saved = already_saved(item, loc)`, then
`if saved and item.other_media: saved = already_saved(item.other_media, loc)`. -/
def savedFor (fs : FS) (item : Media) (backup_location : String) : Bool :=
  match Media.other_media item with
  | some c => already_saved fs item backup_location && already_saved fs c backup_location
  | none => already_saved fs item backup_location

/-- The destination paths whose presence `skip_already_saved` queries for
one item, in call order: always the item's own path; the companion's path
only when the item's own check succeeded and a companion exists. -/
def entryQueries (fs : FS) (item : Media) (backup_location : String) : List String :=
  match Media.other_media item with
  | some c =>
    if already_saved fs item backup_location then
      [item_download_path item backup_location, item_download_path c backup_location]
    else
      [item_download_path item backup_location]
  | none => [item_download_path item backup_location]

/-- The early-stop test of `skip_already_saved`:
`until_found is not None and consecutive_files_found >= until_found`. -/
def matchStop : Option Nat → Nat → Bool
  | none, _ => false
  | some k, c => decide (k ≤ c)

/-- Observable behaviour of one run of the `skip_already_saved` generator:
the entries it re-emits downstream, how many entries it pulled from the
upstream catalog, and the destination paths it queried, in order. -/
structure SkipTrace where
  emitted : List Media
  pulled : Nat
  queried : List String

/-- `skip_already_saved(items, backup_location, until_found)` from
`backup_photos.py`, with `consec` the running value of
`consecutive_files_found`.  A present item is logged and dropped and
increments the counter; reaching `until_found` breaks out of the loop; a
non-present item resets the counter and is yielded. -/
def skip_already_saved (fs : FS) (backup_location : String) (until_found : Option Nat) :
    List Media → Nat → SkipTrace
  | [], _ => ⟨[], 0, []⟩
  | item :: rest, consec =>
    if savedFor fs item backup_location then
      if matchStop until_found (consec + 1) then
        ⟨[], 1, entryQueries fs item backup_location⟩
      else
        let t := skip_already_saved fs backup_location until_found rest (consec + 1)
        ⟨t.emitted, t.pulled + 1, entryQueries fs item backup_location ++ t.queried⟩
    else
      let t := skip_already_saved fs backup_location until_found rest 0
      ⟨item :: t.emitted, t.pulled + 1, entryQueries fs item backup_location ++ t.queried⟩

/-- Destination paths belonging to an entry: its own path and, when a
companion exists, the companion's path. -/
def entryPaths (item : Media) (backup_location : String) : List String :=
  item_download_path item backup_location ::
    (Media.other_media item).toList.map (fun c => item_download_path c backup_location)

lemma entryQueries_subset_entryPaths (fs : FS) (item : Media) (loc : String) :
    ∀ q ∈ entryQueries fs item loc, q ∈ entryPaths item loc := by
  intro q hq
  unfold entryQueries at hq
  unfold entryPaths
  cases h : Media.other_media item with
  | none => simp [h] at hq ⊢; simpa using hq
  | some c =>
    rw [h] at hq
    by_cases hs : already_saved fs item loc
    · simp [hs, h] at hq ⊢; tauto
    · simp [hs, h] at hq ⊢; tauto

lemma skip_none_characterisation (fs : FS) (loc : String) :
    ∀ (stream : List Media) (c : Nat),
      skip_already_saved fs loc none stream c =
        ⟨stream.filter (fun i => !savedFor fs i loc), stream.length,
          stream.flatMap (fun i => entryQueries fs i loc)⟩ := by
  intro stream
  induction stream with
  | nil => intro c; rfl
  | cons item rest ih =>
    intro c
    by_cases hs : savedFor fs item loc
    · simp [skip_already_saved, hs, matchStop, ih (c + 1), List.filter]
    · simp [skip_already_saved, hs, matchStop, ih 0, List.filter, hs]

lemma skip_stop_on_present_run (fs : FS) (loc : String) (k : Nat) :
    ∀ (pre : List Media) (c : Nat) (tail : List Media),
      (∀ e ∈ pre, savedFor fs e loc = true) →
      c < k → k ≤ c + pre.length →
      skip_already_saved fs loc (some k) (pre ++ tail) c =
        ⟨[], k - c, (pre.take (k - c)).flatMap (fun e => entryQueries fs e loc)⟩ := by
  intro pre
  induction pre with
  | nil =>
    intro c tail hall hck hk
    simp at hk
    omega
  | cons e pre ih =>
    intro c tail hall hck hk
    have hse : savedFor fs e loc = true := hall e (by simp)
    by_cases hstop : k ≤ c + 1
    · have hkc : k - c = 1 := by omega
      have hms : matchStop (some k) (c + 1) = true := by
        simp only [matchStop, decide_eq_true_eq]; omega
      simp [skip_already_saved, hse, hms, hkc]
    · have hms : matchStop (some k) (c + 1) = false := by
        simp only [matchStop, decide_eq_false_iff_not]; omega
      have hk' : k ≤ (c + 1) + pre.length := by
        simp only [List.length_cons] at hk; omega
      have hrec := ih (c + 1) tail (fun x hx => hall x (by simp [hx])) (by omega) hk'
      obtain ⟨m, hm⟩ : ∃ m, k - c = m + 1 := ⟨k - c - 1, by omega⟩
      have hm' : k - (c + 1) = m := by omega
      simp [skip_already_saved, hse, hms, hrec, hm, hm', List.take_succ_cons]

/-- C3 (amended to thresholds `k ≥ 1`): without an early-stop threshold the
skip filter emits exactly the non-present entries in order and pulls the
whole stream; with threshold `k ≥ 1`, if the first `k` entries are all
present and are followed by a non-present one, the filter pulls exactly
those `k` entries, emits nothing, and every presence query it issues is
for a path of one of those first `k` entries — the absent entry and
everything after it is never pulled or queried. -/
theorem skip_filter_early_stop (fs : FS) (loc : String) :
    (∀ (stream : List Media),
        (skip_already_saved fs loc none stream 0).emitted
            = stream.filter (fun i => !savedFor fs i loc)
        ∧ (skip_already_saved fs loc none stream 0).pulled = stream.length)
    ∧ ∀ (k : Nat) (pre : List Media) (nxt : Media) (tail : List Media),
        1 ≤ k → pre.length = k →
        (∀ e ∈ pre, savedFor fs e loc = true) →
        savedFor fs nxt loc = false →
        (skip_already_saved fs loc (some k) (pre ++ nxt :: tail) 0).pulled = k
        ∧ (skip_already_saved fs loc (some k) (pre ++ nxt :: tail) 0).emitted = []
        ∧ ∀ q ∈ (skip_already_saved fs loc (some k) (pre ++ nxt :: tail) 0).queried,
            ∃ e ∈ pre, q ∈ entryPaths e loc := by
  constructor
  · intro stream
    rw [skip_none_characterisation fs loc stream 0]
    exact ⟨rfl, rfl⟩
  · intro k pre nxt tail hk hlen hall habs
    have h := skip_stop_on_present_run fs loc k pre 0 (nxt :: tail) hall (by omega)
      (by omega)
    rw [h]
    refine ⟨rfl, rfl, ?_⟩
    intro q hq
    simp only [Nat.sub_zero, hlen.symm, List.take_length, List.mem_flatMap] at hq
    obtain ⟨e, he, hqe⟩ := hq
    exact ⟨e, he, entryQueries_subset_entryPaths fs e loc q hqe⟩

/-- Fixture for C3: an entry absent from the destination. -/
def c3AbsentItem : Media := .mk "a.jpg" ⟨2020, 1, 2⟩ 5 "ua" none

/-- Fixture for C3: an entry present in `c3FS` at its exact size. -/
def c3PresentItem : Media := .mk "p.jpg" ⟨2021, 2, 3⟩ 7 "up" none

/-- Fixture for C3: destination holding exactly `c3PresentItem`. -/
def c3FS : FS := ⟨[("root/2021/02/03/p.jpg", FileStat.ok 7)], []⟩

/-- C3 counterexample: the claim quantifies over every threshold
`k = untilFound`, but with `untilFound = 0` and a stream whose first entry
is absent (the first `0` entries are vacuously all present, followed by an
absent one) the generator does not halt before the absent entry as the
claim states: the absent entry is pulled and emitted, because the stop
test runs only after a present entry increments the counter. -/
theorem skip_filter_early_stop_counterexample :
    (skip_already_saved ⟨[], []⟩ "root" (some 0) [c3AbsentItem] 0).pulled = 1
    ∧ (skip_already_saved ⟨[], []⟩ "root" (some 0) [c3AbsentItem] 0).emitted
        = [c3AbsentItem] := by
  exact ⟨rfl, rfl⟩

/-- Witness for C3: threshold 1, one present entry followed by an absent
one — exactly one entry pulled, nothing emitted. -/
theorem skip_filter_early_stop_witness :
    (skip_already_saved c3FS "root" (some 1) ([c3PresentItem] ++ c3AbsentItem :: []) 0).pulled = 1
    ∧ (skip_already_saved c3FS "root" (some 1) ([c3PresentItem] ++ c3AbsentItem :: []) 0).emitted
        = [] := by
  have h := (skip_filter_early_stop c3FS "root").2 1 [c3PresentItem] c3AbsentItem []
    (by decide) (by decide) (by decide) (by decide)
  exact ⟨h.1, h.2.1⟩

/-- C9: the early-stop test is evaluated only after a present entry has
incremented the consecutive-present counter, so `untilFound = 0` behaves
identically to `untilFound = 1`; in particular the first entry of a
nonempty stream is still pulled and examined. -/
theorem until_found_zero_behaves_as_one :
    (∀ (fs : FS) (loc : String) (stream : List Media) (c : Nat),
        skip_already_saved fs loc (some 0) stream c
          = skip_already_saved fs loc (some 1) stream c)
    ∧ ∀ (fs : FS) (loc : String) (item : Media) (rest : List Media) (c : Nat),
        1 ≤ (skip_already_saved fs loc (some 0) (item :: rest) c).pulled := by
  constructor
  · intro fs loc stream
    induction stream with
    | nil => intro c; rfl
    | cons item rest ih =>
      intro c
      by_cases hs : savedFor fs item loc
      · have h0 : matchStop (some 0) (c + 1) = true := by
          simp [matchStop]
        have h1 : matchStop (some 1) (c + 1) = true := by
          simp [matchStop]
        simp [skip_already_saved, hs, h0, h1]
      · simp [skip_already_saved, hs, ih 0]
  · intro fs loc item rest c
    by_cases hs : savedFor fs item loc <;>
      simp [skip_already_saved, hs, matchStop]

/-- C10: when an entry carries a companion but the primary's presence
check fails, the companion's storage is never consulted for that entry —
the only path queried for it is the primary's — and the whole logical
item is re-emitted for download (so a present companion under an absent
primary is re-downloaded). -/
theorem companion_not_queried_when_primary_absent
    (fs : FS) (loc : String) (uf : Option Nat) (item comp : Media)
    (rest : List Media) (c : Nat)
    (hcomp : Media.other_media item = some comp)
    (habs : already_saved fs item loc = false) :
    (skip_already_saved fs loc uf (item :: rest) c).emitted
        = item :: (skip_already_saved fs loc uf rest 0).emitted
    ∧ (skip_already_saved fs loc uf (item :: rest) c).queried
        = item_download_path item loc :: (skip_already_saved fs loc uf rest 0).queried := by
  have hsaved : savedFor fs item loc = false := by
    unfold savedFor
    rw [hcomp, habs]
    simp
  have hq : entryQueries fs item loc = [item_download_path item loc] := by
    unfold entryQueries
    rw [hcomp, habs]
    simp
  simp [skip_already_saved, hsaved, hq]

/-- Fixture for C10: a companion entry, present in `c10FS`. -/
def c10Comp : Media := .mk "a.mov" ⟨2020, 1, 2⟩ 3 "uc" none

/-- Fixture for C10: a primary entry carrying `c10Comp`, absent from
`c10FS`. -/
def c10Item : Media := .mk "a.jpg" ⟨2020, 1, 2⟩ 5 "ua" (some c10Comp)

/-- Fixture for C10: destination holding the companion but not the
primary. -/
def c10FS : FS := ⟨[("root/2020/01/02/a.mov", FileStat.ok 3)], []⟩

/-- Witness for C10: a present companion under an absent primary is
re-emitted, with only the primary's path queried. -/
theorem companion_not_queried_when_primary_absent_witness :
    (skip_already_saved c10FS "root" none (c10Item :: []) 0).emitted
        = c10Item :: (skip_already_saved c10FS "root" none [] 0).emitted
    ∧ (skip_already_saved c10FS "root" none (c10Item :: []) 0).queried
        = item_download_path c10Item "root"
            :: (skip_already_saved c10FS "root" none [] 0).queried :=
  companion_not_queried_when_primary_absent c10FS "root" none c10Item c10Comp [] 0
    rfl (by decide)

/-- `get_all_downloadable_items(items)` from `backup_photos.py`: yield each
item, and after an item that carries a companion also yield the
companion. -/
def get_all_downloadable_items : List Media → List Media
  | [] => []
  | item :: rest =>
    match Media.other_media item with
    | some c => item :: c :: get_all_downloadable_items rest
    | none => item :: get_all_downloadable_items rest

/-- C8: the expander maps each entry without a companion to itself and each
entry with a companion to exactly two output entries (parent first, then
companion), preserving the relative order of the input entries (the input
is a sublist of the output) and adding exactly one output entry per
companion. -/
theorem expander_flattens_companions (items : List Media) :
    get_all_downloadable_items items
        = items.flatMap (fun i => i :: (Media.other_media i).toList)
    ∧ (get_all_downloadable_items items).length
        = items.length + items.countP (fun i => (Media.other_media i).isSome)
    ∧ List.Sublist items (get_all_downloadable_items items) := by
  induction items with
  | nil => exact ⟨rfl, rfl, List.Sublist.refl _⟩
  | cons item rest ih =>
    obtain ⟨h1, h2, h3⟩ := ih
    cases h : Media.other_media item with
    | none =>
      refine ⟨?_, ?_, ?_⟩
      · simp [get_all_downloadable_items, h, h1]
      · simp [get_all_downloadable_items, h, h2, List.countP_cons]
        omega
      · simpa [get_all_downloadable_items, h] using List.Sublist.cons₂ item h3
    | some c =>
      refine ⟨?_, ?_, ?_⟩
      · simp [get_all_downloadable_items, h, h1]
      · simp [get_all_downloadable_items, h, h2, List.countP_cons]
        omega
      · simp only [get_all_downloadable_items, h]
        exact List.Sublist.cons₂ item (List.Sublist.cons c h3)

/-- One decoded remote record as consumed by `Media.from_record`: its
record type, the (base64-decoded) file name, the (converted) creation
date, the original-resolution size/URL pair, and the optional
`resOriginalVidComplRes` size/URL pair of a Live-Photo video. -/
structure PhotoRecord where
  recordType : String
  file_name : String
  created_date : Date
  original_size : Nat
  original_url : String
  vidComplRes : Option (Nat × String)
deriving Repr

/-- Python `file_name.rsplit('.', 1)[0]`: the file name with its last
extension removed (unchanged when it has no dot). -/
def rsplitStem (s : String) : String :=
  let parts := s.splitOn "."
  if parts.length ≤ 1 then s else String.intercalate "." parts.dropLast

/-- `Media.from_record(record)` with the default original-resolution key. -/
def Media.from_record (r : PhotoRecord) : Media :=
  .mk r.file_name r.created_date r.original_size r.original_url none

/-- `Media.from_live_photo_record(record)`: decode the record again at the
`resOriginalVidComplRes` key (given here as `vid`, the size/URL pair that
key holds) and rewrite the file extension to `.mov`. -/
def Media.from_live_photo_record (r : PhotoRecord) (vid : Nat × String) : Media :=
  .mk (rsplitStem r.file_name ++ ".mov") r.created_date vid.1 vid.2 none

/-- One master record decoded inside the `get_media` loop: the primary
media, with `other_media` populated when the record carries a
`resOriginalVidComplRes` field. -/
def mediaOfMaster (r : PhotoRecord) : Media :=
  match r.vidComplRes with
  | some vid =>
    .mk r.file_name r.created_date r.original_size r.original_url
      (some (Media.from_live_photo_record r vid))
  | none => Media.from_record r

/-- Number of primary (`CPLMaster`) records on one page. -/
def numMasters (records : List PhotoRecord) : Nat :=
  (records.filter (fun r => r.recordType == "CPLMaster")).length

/-- Observable result of one `get_media` enumeration: the entries yielded,
whether the loop terminated via its zero-masters break (rather than by the
fuel bound of the model), and the offsets it queried, in order. -/
structure CatalogRun where
  entries : List Media
  finished : Bool
  offsets : List Nat

/-- `get_media(endpoint, session, params, query_builder)` from
`backup_photos.py`.  `remote` maps a query offset to the records of the
returned page; the loop filters the page to its `CPLMaster` records,
breaks when there are none, otherwise advances the offset by their count
and yields one decoded media entry per master.  The loop in the source is
unbounded, so the model carries `fuel`; `finished = true` marks runs that
reached the break. -/
def get_media (remote : Nat → List PhotoRecord) : Nat → Nat → CatalogRun
  | 0, _ => ⟨[], false, []⟩
  | fuel + 1, offset =>
    let master_records := (remote offset).filter (fun r => r.recordType == "CPLMaster")
    if master_records.length == 0 then ⟨[], true, [offset]⟩
    else
      let rest := get_media remote fuel (offset + master_records.length)
      ⟨master_records.map mediaOfMaster ++ rest.entries, rest.finished,
        offset :: rest.offsets⟩

/-- Fixture for C7: five master records, the third carrying a Live-Photo
companion field, plus one non-master record that must not count. -/
def c7Rec (i : Nat) : PhotoRecord :=
  ⟨"CPLMaster", "img" ++ toString i ++ ".jpg", ⟨2022, 3, 4⟩, 10 + i,
    "url" ++ toString i, if i == 2 then some (100, "vidurl2") else none⟩

/-- Fixture for C7: a non-master asset record interleaved in the page. -/
def c7AssetRec : PhotoRecord := ⟨"CPLAsset", "x", ⟨2022, 3, 4⟩, 0, "", none⟩

/-- Fixture for C7: a remote returning 5 masters at offset 0 and an empty
page everywhere else. -/
def c7Remote : Nat → List PhotoRecord := fun offset =>
  if offset == 0 then
    [c7Rec 0, c7Rec 1, c7AssetRec, c7Rec 2, c7Rec 3, c7Rec 4]
  else []

/-- C7: enumeration starts at offset 0 and advances the offset by exactly
the number of master records each page returned, terminating the first
time a page has zero masters (first two conjuncts, stated for every
remote); in particular the fixture remote returning 5 masters then 0
masters queries offsets 0 and 5, yields exactly 5 entries (the Live-Photo
one with its companion) and terminates; `recent = 2` (`itertools.islice`)
truncates the sequence to its first 2 entries. -/
theorem pagination_contract :
    (∀ (remote : Nat → List PhotoRecord) (fuel offset : Nat),
        numMasters (remote offset) = 0 →
        get_media remote (fuel + 1) offset = ⟨[], true, [offset]⟩)
    ∧ (∀ (remote : Nat → List PhotoRecord) (fuel offset : Nat),
        0 < numMasters (remote offset) →
        (get_media remote (fuel + 1) offset).offsets
            = offset :: (get_media remote fuel (offset + numMasters (remote offset))).offsets
        ∧ (get_media remote (fuel + 1) offset).entries
            = ((remote offset).filter (fun r => r.recordType == "CPLMaster")).map mediaOfMaster
                ++ (get_media remote fuel (offset + numMasters (remote offset))).entries)
    ∧ get_media c7Remote 2 0
        = ⟨[mediaOfMaster (c7Rec 0), mediaOfMaster (c7Rec 1), mediaOfMaster (c7Rec 2),
            mediaOfMaster (c7Rec 3), mediaOfMaster (c7Rec 4)], true, [0, 5]⟩
    ∧ (get_media c7Remote 2 0).entries.take 2
        = [mediaOfMaster (c7Rec 0), mediaOfMaster (c7Rec 1)] := by
  refine ⟨?_, ?_, ?_, ?_⟩
  · intro remote fuel offset h
    unfold numMasters at h
    simp [get_media, h]
  · intro remote fuel offset h
    unfold numMasters at h
    constructor <;>
      simp [get_media, numMasters, Nat.pos_iff_ne_zero.mp h]
  · rfl
  · rfl

/-- Witness for C7: the zero-masters break and the offset advance,
instantiated on the fixture remote. -/
theorem pagination_contract_witness :
    get_media c7Remote 1 5 = ⟨[], true, [5]⟩
    ∧ (get_media c7Remote 1 0).offsets = 0 :: (get_media c7Remote 0 5).offsets :=
  ⟨pagination_contract.1 c7Remote 0 5 (by decide),
    (pagination_contract.2.1 c7Remote 0 0 (by decide)).1⟩

/-- `MAX_RETRIES` from `backup_photos.py`. -/
def MAX_RETRIES : Nat := 5

/-- `WAIT_SECONDS` from `backup_photos.py`. -/
def WAIT_SECONDS : Nat := 5

/-- Outcome of one `session.get(url, stream=True)` attempt together with
streaming its body: a fully received body of `len` bytes, a
`requests.exceptions.ConnectionError`, or a `socket.timeout`. -/
inductive FetchOutcome where
  | ok (len : Nat)
  | connectionError
  | socketTimeout
deriving DecidableEq, Repr

/-- A Python exception that `download`'s `except` clause does not catch,
e.g. the `OSError` raised by `open`/`write` on disk full or permission
denied. -/
inductive PyError where
  | osError
deriving DecidableEq, Repr

/-- Observable events of the per-unit download routine, in order. -/
inductive Event where
  | fetchAttempt (url : String)
  | logInfoDownloading (path : String)
  | fileWrite (path : String) (len : Nat)
  | logWarningRetry
  | sleepSecs (n : Nat)
  | logErrorFailed (path : String)
deriving DecidableEq, Repr

/-- How the `download` call ends: a normal `return` (also covers the
retries-exhausted `for`/`else` path) or an uncaught exception propagating
to the caller. -/
inductive DownloadResult where
  | returned
  | raised (e : PyError)
deriving DecidableEq, Repr

/-- The `for _ in range(MAX_RETRIES)` retry loop of `download` in
`backup_photos.py` (filesystem branch, `s3_client is None`), with `n` the
remaining iterations and `attempt` indexing `fetch`.  A connectivity
failure logs a warning, sleeps `WAIT_SECONDS` and retries; a successful
fetch logs, opens the destination and writes it, and returns; a storage
failure while opening/writing raises an uncaught `OSError`; when the loop
exhausts its range, the `else` clause logs the unit as failed at error
level and the function returns normally. -/
def downloadLoop (fetch : Nat → FetchOutcome) (storageFails : String → Bool)
    (download_path url : String) : Nat → Nat → List Event × DownloadResult
  | 0, _ => ([Event.logErrorFailed download_path], DownloadResult.returned)
  | n + 1, attempt =>
    match fetch attempt with
    | FetchOutcome.ok len =>
      if storageFails download_path then
        ([Event.fetchAttempt url, Event.logInfoDownloading download_path],
          DownloadResult.raised PyError.osError)
      else
        ([Event.fetchAttempt url, Event.logInfoDownloading download_path,
          Event.fileWrite download_path len], DownloadResult.returned)
    | FetchOutcome.connectionError =>
      let r := downloadLoop fetch storageFails download_path url n (attempt + 1)
      (Event.fetchAttempt url :: Event.logWarningRetry ::
        Event.sleepSecs WAIT_SECONDS :: r.1, r.2)
    | FetchOutcome.socketTimeout =>
      let r := downloadLoop fetch storageFails download_path url n (attempt + 1)
      (Event.fetchAttempt url :: Event.logWarningRetry ::
        Event.sleepSecs WAIT_SECONDS :: r.1, r.2)

/-- `download(media_item, directory, session)` from `backup_photos.py`:
derive the destination path, then run the retry loop. -/
def download (fetch : Nat → FetchOutcome) (storageFails : String → Bool)
    (media_item : Media) (directory : String) : List Event × DownloadResult :=
  downloadLoop fetch storageFails (item_download_path media_item directory)
    (Media.download_url media_item) MAX_RETRIES 0

lemma downloadLoop_all_connectivity (fetch : Nat → FetchOutcome)
    (storageFails : String → Bool) (p u : String)
    (hconn : ∀ i, fetch i = FetchOutcome.connectionError
        ∨ fetch i = FetchOutcome.socketTimeout) :
    ∀ (n a : Nat),
      downloadLoop fetch storageFails p u n a =
        ((List.replicate n [Event.fetchAttempt u, Event.logWarningRetry,
            Event.sleepSecs WAIT_SECONDS]).flatten
          ++ [Event.logErrorFailed p], DownloadResult.returned) := by
  intro n
  induction n with
  | zero => intro a; simp [downloadLoop]
  | succ n ih =>
    intro a
    rcases hconn a with h | h <;>
      simp [downloadLoop, h, ih (a + 1), List.replicate_succ]

/-- C4: a unit whose network fetch always raises a connectivity error
(connection error or socket timeout) is attempted exactly `MAX_RETRIES`
(5) times, with a warning and a fixed `WAIT_SECONDS` (5) sleep between
consecutive attempts, after which the unit is logged as failed at error
level and `download` returns normally — no exception propagates, so the
pipeline proceeds to the next unit. -/
theorem retry_bound_on_connectivity_failure
    (fetch : Nat → FetchOutcome) (storageFails : String → Bool)
    (media_item : Media) (directory : String)
    (hconn : ∀ i, fetch i = FetchOutcome.connectionError
        ∨ fetch i = FetchOutcome.socketTimeout) :
    download fetch storageFails media_item directory
        = ((List.replicate MAX_RETRIES
              [Event.fetchAttempt (Media.download_url media_item),
               Event.logWarningRetry, Event.sleepSecs WAIT_SECONDS]).flatten
            ++ [Event.logErrorFailed (item_download_path media_item directory)],
           DownloadResult.returned)
    ∧ (download fetch storageFails media_item directory).1.countP
        (fun e => match e with | Event.fetchAttempt _ => true | _ => false)
          = MAX_RETRIES := by
  have h : download fetch storageFails media_item directory
      = ((List.replicate MAX_RETRIES
            [Event.fetchAttempt (Media.download_url media_item),
             Event.logWarningRetry, Event.sleepSecs WAIT_SECONDS]).flatten
          ++ [Event.logErrorFailed (item_download_path media_item directory)],
         DownloadResult.returned) := by
    unfold download
    exact downloadLoop_all_connectivity fetch storageFails _ _ hconn MAX_RETRIES 0
  refine ⟨h, ?_⟩
  rw [h]
  rfl

/-- Fixture for C4: an arbitrary unit to download. -/
def c4Item : Media := .mk "c.jpg" ⟨2019, 12, 31⟩ 9 "uc4" none

/-- Witness for C4: under a fetch that always raises a connection error,
exactly `MAX_RETRIES` fetch attempts happen and the call returns
normally. -/
theorem retry_bound_on_connectivity_failure_witness :
    (download (fun _ => FetchOutcome.connectionError) (fun _ => false) c4Item "root").1.countP
        (fun e => match e with | Event.fetchAttempt _ => true | _ => false)
          = MAX_RETRIES
    ∧ (download (fun _ => FetchOutcome.connectionError) (fun _ => false) c4Item "root").2
        = DownloadResult.returned := by
  have h := retry_bound_on_connectivity_failure (fun _ => FetchOutcome.connectionError)
    (fun _ => false) c4Item "root" (fun _ => Or.inl rfl)
  exact ⟨h.2, by rw [h.1]⟩

/-- `worker(download_queue)` from `backup_photos.py`, run on the sequence
of units one worker thread dequeues (ending with its `None` sentinel):
`download` each unit, then `task_done`.  There is no `try`/`except` around
the call, so an exception raised by `download` terminates the thread; the
returned triple is (events, number of `task_done` calls made, the
uncaught exception if one escaped). -/
def worker (fetch : Nat → FetchOutcome) (storageFails : String → Bool)
    (directory : String) : List Media → List Event × Nat × Option PyError
  | [] => ([], 0, none)
  | item :: rest =>
    let d := download fetch storageFails item directory
    match d.2 with
    | DownloadResult.returned =>
      let w := worker fetch storageFails directory rest
      (d.1 ++ w.1, w.2.1 + 1, w.2.2)
    | DownloadResult.raised e => (d.1, 0, some e)

/-- Fixture for C5: first queued unit; its persist step will raise. -/
def c5ItemA : Media := .mk "a.jpg" ⟨2020, 5, 6⟩ 3 "ua5" none

/-- Fixture for C5: second queued unit, behind the failing one. -/
def c5ItemB : Media := .mk "b.jpg" ⟨2020, 5, 7⟩ 4 "ub5" none

/-- C5 evaluation: when the persist step raises a non-connectivity storage
error (`open` raising `OSError`), the error is NOT caught at the per-unit
boundary: it propagates out of `download` into `worker`, which has no
handler, so the worker thread dies with the exception, `task_done` is
never called for the unit (`download_queue.join()` then blocks forever),
and the next queued unit is never fetched.  The claim (and spec §7) says
such an error is caught, logged, the unit marked failed, and the pipeline
continues. -/
theorem storage_error_escapes_worker :
    worker (fun _ => FetchOutcome.ok 3) (fun _ => true) "root" [c5ItemA, c5ItemB]
        = ([Event.fetchAttempt "ua5", Event.logInfoDownloading "root/2020/05/06/a.jpg"],
           0, some PyError.osError)
    ∧ (worker (fun _ => FetchOutcome.ok 3) (fun _ => true) "root" [c5ItemA, c5ItemB]).1.countP
        (fun e => match e with | Event.fetchAttempt u => u == "ub5" | _ => false) = 0 := by
  exact ⟨rfl, rfl⟩

/-- The download units one catalog entry expands to (`yield item`, then
`yield item.other_media` when present). -/
def unitsOf (item : Media) : List Media :=
  item :: (Media.other_media item).toList

/-- All download units of a catalog, in pipeline order. -/
def allUnits (catalog : List Media) : List Media :=
  catalog.flatMap unitsOf

/-- Effect on the destination of downloading one unit in the filesystem
branch: the fetched body (of length `fetchLen url`) is written to the
unit's destination path. -/
def downloadUnit (fetchLen : String → Nat) (directory : String) (fs : FS) (u : Media) : FS :=
  writeFile fs (item_download_path u directory) (fetchLen (Media.download_url u))

/-- State effect of processing one emitted entry: `make_directories`
creates the entry's directory, then the expander's units (parent, then
companion) are each downloaded. -/
def downloadAll (fetchLen : String → Nat) (directory : String) (fs : FS) (item : Media) : FS :=
  (unitsOf item).foldl (downloadUnit fetchLen directory)
    (mkdir fs (get_download_dir (Media.created_date item) directory))

/-- One failure-free run of the whole pipeline of `backup`
(skip filter, `make_directories`, expander, download workers), linearised:
the generator chain hands each entry through the skip filter and, when
emitted, its units are downloaded before the next entry is pulled.
Returns the final destination state and the number of download calls
performed.  `consec` is the skip filter's `consecutive_files_found`. -/
def runPipeline (fetchLen : String → Nat) (directory : String) (until_found : Option Nat) :
    List Media → Nat → FS → FS × Nat
  | [], _, fs => (fs, 0)
  | item :: rest, consec, fs =>
    if savedFor fs item directory then
      if matchStop until_found (consec + 1) then (fs, 0)
      else runPipeline fetchLen directory until_found rest (consec + 1) fs
    else
      ((runPipeline fetchLen directory until_found rest 0
          (downloadAll fetchLen directory fs item)).1,
        (runPipeline fetchLen directory until_found rest 0
          (downloadAll fetchLen directory fs item)).2 + (unitsOf item).length)

lemma mkdir_files (fs : FS) (d : String) : (mkdir fs d).files = fs.files := by
  unfold mkdir
  split <;> rfl

lemma lookupFile_mkdir (fs : FS) (d q : String) :
    lookupFile (mkdir fs d) q = lookupFile fs q := by
  unfold lookupFile
  rw [mkdir_files]

lemma lookupFile_writeFile (fs : FS) (p : String) (n : Nat) (q : String) :
    lookupFile (writeFile fs p n) q
      = if q = p then some (FileStat.ok n) else lookupFile fs q := by
  unfold lookupFile writeFile
  by_cases h : q = p
  · subst h
    simp
  · have hne : (p == q) = false := by
      simpa [beq_iff_eq] using fun heq => h heq.symm
    simp [List.find?_cons, hne, h]

lemma already_saved_congr {fs1 fs2 : FS} (item : Media) (loc : String)
    (h : lookupFile fs1 (item_download_path item loc)
        = lookupFile fs2 (item_download_path item loc)) :
    already_saved fs1 item loc = already_saved fs2 item loc := by
  unfold already_saved
  rw [h]

lemma savedFor_congr {fs1 fs2 : FS} (item : Media) (loc : String)
    (h : ∀ u ∈ unitsOf item, lookupFile fs1 (item_download_path u loc)
        = lookupFile fs2 (item_download_path u loc)) :
    savedFor fs1 item loc = savedFor fs2 item loc := by
  cases hc : Media.other_media item with
  | none =>
    simp only [savedFor, hc]
    exact already_saved_congr item loc (h item (by simp [unitsOf]))
  | some c =>
    simp only [savedFor, hc]
    rw [already_saved_congr item loc (h item (by simp [unitsOf])),
      already_saved_congr c loc (h c (by simp [unitsOf, hc]))]

lemma foldl_downloadUnit_frame (fetchLen : String → Nat) (loc : String) :
    ∀ (us : List Media) (fs : FS) (p : String),
      (∀ u ∈ us, p ≠ item_download_path u loc) →
      lookupFile (us.foldl (downloadUnit fetchLen loc) fs) p = lookupFile fs p := by
  intro us
  induction us with
  | nil => intro fs p _; rfl
  | cons v us ih =>
    intro fs p h
    simp only [List.foldl_cons]
    rw [ih _ p (fun u hu => h u (by simp [hu]))]
    unfold downloadUnit
    rw [lookupFile_writeFile]
    simp [h v (by simp)]

lemma foldl_downloadUnit_present (fetchLen : String → Nat) (loc : String) :
    ∀ (us : List Media) (fs : FS),
      (∀ u ∈ us, fetchLen (Media.download_url u) = Media.file_size u) →
      List.Pairwise (fun a b => item_download_path a loc ≠ item_download_path b loc) us →
      ∀ u ∈ us, lookupFile (us.foldl (downloadUnit fetchLen loc) fs)
          (item_download_path u loc) = some (FileStat.ok (Media.file_size u)) := by
  intro us
  induction us with
  | nil => intro fs _ _ u hu; cases hu
  | cons v us ih =>
    intro fs honest hpw u hu
    obtain ⟨hhead, htail⟩ := List.pairwise_cons.mp hpw
    simp only [List.foldl_cons]
    rcases List.mem_cons.mp hu with rfl | hu'
    · rw [foldl_downloadUnit_frame fetchLen loc us _ _ (fun w hw => hhead w hw)]
      unfold downloadUnit
      rw [lookupFile_writeFile]
      simp [honest u (by simp)]
    · exact ih _ (fun w hw => honest w (by simp [hw])) htail u hu'

lemma matchStop_mono {uf : Option Nat} {a b : Nat}
    (h : matchStop uf a = true) (hab : a ≤ b) : matchStop uf b = true := by
  cases uf with
  | none => simp [matchStop] at h
  | some k =>
    simp only [matchStop, decide_eq_true_eq] at h ⊢
    omega

lemma allUnits_cons (item : Media) (rest : List Media) :
    allUnits (item :: rest) = unitsOf item ++ allUnits rest := by
  simp [allUnits]

lemma runPipeline_second_run (fetchLen : String → Nat) (loc : String) (uf : Option Nat) :
    ∀ (catalog : List Media) (c₁ c₂ : Nat) (fs : FS),
      c₁ ≤ c₂ →
      (∀ u ∈ allUnits catalog, fetchLen (Media.download_url u) = Media.file_size u) →
      List.Pairwise (fun a b => item_download_path a loc ≠ item_download_path b loc)
        (allUnits catalog) →
      runPipeline fetchLen loc uf catalog c₂ (runPipeline fetchLen loc uf catalog c₁ fs).1
          = ((runPipeline fetchLen loc uf catalog c₁ fs).1, 0)
      ∧ ∀ p, (∀ u ∈ allUnits catalog, p ≠ item_download_path u loc) →
          lookupFile (runPipeline fetchLen loc uf catalog c₁ fs).1 p = lookupFile fs p := by
  intro catalog
  induction catalog with
  | nil => exact fun c₁ c₂ fs _ _ _ => ⟨rfl, fun p _ => rfl⟩
  | cons item rest ih =>
    intro c₁ c₂ fs hc honest hpw
    rw [allUnits_cons] at honest hpw
    have honestItem : ∀ u ∈ unitsOf item,
        fetchLen (Media.download_url u) = Media.file_size u :=
      fun u hu => honest u (List.mem_append.mpr (Or.inl hu))
    have honestRest : ∀ u ∈ allUnits rest,
        fetchLen (Media.download_url u) = Media.file_size u :=
      fun u hu => honest u (List.mem_append.mpr (Or.inr hu))
    obtain ⟨hpwItem, hpwRest, hcross⟩ := List.pairwise_append.mp hpw
    by_cases hs : savedFor fs item loc
    · by_cases hstop : matchStop uf (c₁ + 1) = true
      · have hstop2 : matchStop uf (c₂ + 1) = true := matchStop_mono hstop (by omega)
        constructor
        · simp [runPipeline, hs, hstop, hstop2]
        · intro p _
          simp [runPipeline, hs, hstop]
      · have hrec := ih (c₁ + 1) (c₂ + 1) fs (by omega) honestRest hpwRest
        have hrun1 : runPipeline fetchLen loc uf (item :: rest) c₁ fs
            = runPipeline fetchLen loc uf rest (c₁ + 1) fs := by
          simp [runPipeline, hs, hstop]
        have hs1 : savedFor (runPipeline fetchLen loc uf rest (c₁ + 1) fs).1 item loc = true := by
          rw [savedFor_congr item loc
            (fun u hu => hrec.2 (item_download_path u loc) (fun w hw => hcross u hu w hw))]
          exact hs
        constructor
        · rw [hrun1]
          by_cases hstop2 : matchStop uf (c₂ + 1) = true
          · simp [runPipeline, hs1, hstop2]
          · simpa [runPipeline, hs1, hstop2] using hrec.1
        · intro p hp
          rw [hrun1]
          exact hrec.2 p (fun w hw => hp w (List.mem_append.mpr (Or.inr hw)))
    · have hrec := ih 0 (c₂ + 1) (downloadAll fetchLen loc fs item) (by omega) honestRest hpwRest
      have hrun1 : runPipeline fetchLen loc uf (item :: rest) c₁ fs
          = ((runPipeline fetchLen loc uf rest 0 (downloadAll fetchLen loc fs item)).1,
             (runPipeline fetchLen loc uf rest 0 (downloadAll fetchLen loc fs item)).2
               + (unitsOf item).length) := by
        simp [runPipeline, hs]
      have hpresent2 : ∀ u ∈ unitsOf item,
          lookupFile (downloadAll fetchLen loc fs item) (item_download_path u loc)
            = some (FileStat.ok (Media.file_size u)) :=
        fun u hu => foldl_downloadUnit_present fetchLen loc (unitsOf item) _
          honestItem hpwItem u hu
      have hs2 : savedFor (downloadAll fetchLen loc fs item) item loc = true := by
        cases hc' : Media.other_media item with
        | none =>
          simp only [savedFor, hc', already_saved]
          rw [hpresent2 item (by simp [unitsOf])]
          simp
        | some c =>
          simp only [savedFor, hc', already_saved]
          rw [hpresent2 item (by simp [unitsOf]), hpresent2 c (by simp [unitsOf, hc'])]
          simp
      have hs3 : savedFor (runPipeline fetchLen loc uf rest 0
          (downloadAll fetchLen loc fs item)).1 item loc = true := by
        rw [savedFor_congr item loc
          (fun u hu => hrec.2 (item_download_path u loc) (fun w hw => hcross u hu w hw))]
        exact hs2
      constructor
      · rw [hrun1]
        by_cases hstop2 : matchStop uf (c₂ + 1) = true
        · simp [runPipeline, hs3, hstop2]
        · simpa [runPipeline, hs3, hstop2] using hrec.1
      · intro p hp
        rw [hrun1]
        have h1 : lookupFile (runPipeline fetchLen loc uf rest 0
            (downloadAll fetchLen loc fs item)).1 p
              = lookupFile (downloadAll fetchLen loc fs item) p :=
          hrec.2 p (fun w hw => hp w (List.mem_append.mpr (Or.inr hw)))
        calc lookupFile ((runPipeline fetchLen loc uf rest 0
                (downloadAll fetchLen loc fs item)).1,
              (runPipeline fetchLen loc uf rest 0
                (downloadAll fetchLen loc fs item)).2 + (unitsOf item).length).1 p
            = lookupFile (downloadAll fetchLen loc fs item) p := h1
          _ = lookupFile (mkdir fs (get_download_dir (Media.created_date item) loc)) p := by
              unfold downloadAll
              exact foldl_downloadUnit_frame fetchLen loc (unitsOf item) _ p
                (fun u hu => hp u (List.mem_append.mpr (Or.inl hu)))
          _ = lookupFile fs p := lookupFile_mkdir fs _ p

/-- C1 (amended): under the two side conditions the claim's universal
quantification misses — every unit's fetched body has length exactly its
expected size, and all units have pairwise distinct destination paths —
the pipeline is idempotent: re-running it against the same remote catalog
from the state the first run produced changes nothing and attempts zero
downloads (the skip filter classifies every unit it examines as
present). -/
theorem pipeline_idempotent (fetchLen : String → Nat) (loc : String) (uf : Option Nat)
    (catalog : List Media) (fs : FS)
    (honest : ∀ u ∈ allUnits catalog, fetchLen (Media.download_url u) = Media.file_size u)
    (hdistinct : List.Pairwise (fun a b => item_download_path a loc ≠ item_download_path b loc)
        (allUnits catalog)) :
    runPipeline fetchLen loc uf catalog 0 (runPipeline fetchLen loc uf catalog 0 fs).1
        = ((runPipeline fetchLen loc uf catalog 0 fs).1, 0) :=
  (runPipeline_second_run fetchLen loc uf catalog 0 0 fs (Nat.le_refl 0) honest hdistinct).1

/-- Fixture for C1's counterexample: an entry whose expected size is 1
while the remote body it fetches has length 0. -/
def c1Item : Media := .mk "a.jpg" ⟨2020, 1, 2⟩ 1 "u1" none

/-- C1 counterexample: the claim quantifies over every catalog, but when
the remote body's length differs from the entry's expected size the file
written by the first run fails the second run's size check, so the second
run attempts a download again (1, not 0) — re-download is not zero. -/
theorem pipeline_idempotent_counterexample :
    (runPipeline (fun _ => 0) "root" none [c1Item] 0
        (runPipeline (fun _ => 0) "root" none [c1Item] 0 ⟨[], []⟩).1).2 = 1
    ∧ (runPipeline (fun _ => 0) "root" none [c1Item] 0
        (runPipeline (fun _ => 0) "root" none [c1Item] 0 ⟨[], []⟩).1).2 ≠ 0 := by
  exact ⟨rfl, by decide⟩

/-- Fixture for C1's witness: an entry whose fetched body length matches
its expected size. -/
def c1HonestItem : Media := .mk "b.jpg" ⟨2021, 1, 2⟩ 2 "u2" none

/-- Witness for C1 (amended): with an honest remote, the second run
returns the first run's state unchanged and performs zero downloads. -/
theorem pipeline_idempotent_witness :
    runPipeline (fun _ => 2) "root" none [c1HonestItem] 0
        (runPipeline (fun _ => 2) "root" none [c1HonestItem] 0 ⟨[], []⟩).1
      = ((runPipeline (fun _ => 2) "root" none [c1HonestItem] 0 ⟨[], []⟩).1, 0) :=
  pipeline_idempotent (fun _ => 2) "root" none [c1HonestItem] ⟨[], []⟩
    (by decide) (by decide)

/-- The `only_print` run of the pipeline: the same generator chain
(`skip_already_saved`, then `make_directories`, then
`get_all_downloadable_items`) is built and `print_items` drains it,
logging `item.file_name` per unit.  Note `make_directories` sits upstream
of the `only_print` branch in `backup`, so it still executes. -/
def dryRun (fs : FS) (directory : String) (until_found : Option Nat)
    (catalog : List Media) : List String × FS :=
  ((get_all_downloadable_items
      (skip_already_saved fs directory until_found catalog 0).emitted).map Media.file_name,
    (skip_already_saved fs directory until_found catalog 0).emitted.foldl
      (fun s i => mkdir s (get_download_dir (Media.created_date i) directory)) fs)

lemma foldl_mkdir_files (directory : String) :
    ∀ (items : List Media) (fs : FS),
      (items.foldl (fun s i => mkdir s (get_download_dir (Media.created_date i) directory))
        fs).files = fs.files := by
  intro items
  induction items with
  | nil => intro fs; rfl
  | cons i items ih =>
    intro fs
    rw [List.foldl_cons, ih, mkdir_files]

lemma mem_dirs_mkdir (fs : FS) (d x : String) (h : x ∈ fs.dirs) :
    x ∈ (mkdir fs d).dirs := by
  unfold mkdir
  split
  · exact h
  · exact List.mem_cons_of_mem d h

lemma mem_dirs_foldl_mkdir (directory : String) :
    ∀ (items : List Media) (fs : FS) (x : String), x ∈ fs.dirs →
      x ∈ (items.foldl (fun s i => mkdir s (get_download_dir (Media.created_date i) directory))
        fs).dirs := by
  intro items
  induction items with
  | nil => exact fun fs x h => h
  | cons i items ih =>
    intro fs x h
    rw [List.foldl_cons]
    exact ih _ x (mem_dirs_mkdir fs _ x h)

/-- C6 (amended): with `only_print` set the run logs exactly one line per
would-be-downloaded unit — the file names of the expansion of the skip
filter's output, in enumeration order — and performs no file writes and no
deletes (stored files are untouched and no directory is removed), but it
still CREATES destination directories for the emitted entries, because
`make_directories` sits upstream of the `only_print` branch. -/
theorem dry_run_behaviour (fs : FS) (loc : String) (uf : Option Nat)
    (catalog : List Media) :
    (dryRun fs loc uf catalog).2.files = fs.files
    ∧ (dryRun fs loc uf catalog).1
        = (get_all_downloadable_items
            (skip_already_saved fs loc uf catalog 0).emitted).map Media.file_name
    ∧ ∀ x ∈ fs.dirs, x ∈ (dryRun fs loc uf catalog).2.dirs := by
  refine ⟨?_, rfl, ?_⟩
  · exact foldl_mkdir_files loc _ fs
  · intro x hx
    exact mem_dirs_foldl_mkdir loc _ fs x hx

/-- Fixture for C6: an entry absent from the destination, whose
`YYYY/MM/DD` directory does not exist yet. -/
def c6Item : Media := .mk "a.jpg" ⟨2020, 1, 2⟩ 5 "u6" none

/-- C6 counterexample: the claim says a dry run leaves the destination
state (files and directories) unchanged, but `make_directories` still runs
under `only_print` and creates the entry's directory. -/
theorem dry_run_counterexample :
    (dryRun ⟨[], []⟩ "root" none [c6Item]).2.dirs = ["root/2020/01/02"]
    ∧ (dryRun ⟨[], []⟩ "root" none [c6Item]).2.dirs ≠ (FS.mk [] []).dirs := by
  exact ⟨rfl, by decide⟩

/-- Fixture for C6's witness: a destination with one pre-existing
directory. -/
def c6FS : FS := ⟨[], ["keep"]⟩

/-- Witness for C6 (amended): stored files unchanged; a pre-existing
directory survives the dry run. -/
theorem dry_run_behaviour_witness :
    (dryRun c6FS "root" none [c6Item]).2.files = c6FS.files
    ∧ "keep" ∈ (dryRun c6FS "root" none [c6Item]).2.dirs := by
  have h := dry_run_behaviour c6FS "root" none [c6Item]
  exact ⟨h.1, h.2.2 "keep" (by decide)⟩

end ICloudBackup
